import Mathlib

/-!
Shallow embedding of the pig-tracking repository: the detection engine
(`core/engine.py`, class `Engine` plus its module-level helpers) and the
outbox sender (`sender_worker.py`, class `OutboxSender`).

Modelling conventions:
* positions are exact rationals in meters (`float` in the source);
* datetimes are integers counting seconds (`datetime` arithmetic in the
  source is exact at second granularity, `total_seconds` included);
* Python `None`-able values become `Option`;
* Python dicts become insertion-ordered association lists or lookup
  functions (`dict` iteration order is insertion order, which matters for
  `max` tie-breaking);
* the repository object (`repo.get_recent_positions` etc. of
  `core/repo.py`, `CsvRepo`) is passed in as explicit data: the full
  telemetry list stands for the store and `get_recent_positions` filters
  it by timestamp exactly as `CsvRepo.get_recent_positions` does.
-/

/-- Model of `core/models.py` `PosSample`: one telemetry position sample. -/
structure PosSample where
  dt : Int
  gc : Option Int
  kp : Option ℚ
deriving DecidableEq, Repr

/-- Model of `core/models.py` `POI`. -/
structure POI where
  tag : String
  valve_type : String
  global_channel : Option Int
  kp : Option ℚ
  legacy_route : String
deriving DecidableEq, Repr

/-- Model of `core/models.py` `GapPoint`. -/
structure GapPoint where
  legacy_route : String
  kind : String
  kp : ℚ
deriving DecidableEq, Repr

/-- Gap identity recorded in `PigState.last_gap_fired`.  The source encodes
the triple as the f-string `route:kind:kp`, an injective encoding of
`(route_name, g.kind, g.kp)`; we keep the triple itself. -/
abbrev GapKey := String × String × ℚ

/-- The pig state as the engine actually reads and writes it
(`core/engine.py` accesses these attributes on the state object; the
dataclass declared in `core/models.py` acquires the extra attributes
dynamically).  The `fired_*_for_tag` fields are compared against and
overwritten with plain tag strings by the engine, so they are modelled as
`Option String` with `none` for the never-written initial value. -/
structure PigState where
  locked_legacy_route : Option String := none
  moving_started_at : Option Int := none
  last_event : Option String := none
  last_event_dt : Option Int := none
  first_notif_at : Option Int := none
  last_notif_at : Option Int := none
  fired_pre15_for_tag : Option String := none
  fired_pre30_for_tag : Option String := none
  last_gap_fired : Option GapKey := none
deriving DecidableEq, Repr

/-- A fresh `PigState()`: every field unset. -/
def PigState.init : PigState := {}

/-- Model of `core/engine.py` `EngineConfig` with its default values. -/
structure EngineConfig where
  meters_per_channel : ℚ := 25
  speed_min_mps : ℚ := 1 / 100
  max_ref_age_minutes : Int := 35
  poi_tol_meters : ℚ := 50
  stop_window_seconds : Int := 120
  stop_span_tol_m : ℚ := 50
  speed_search_sec : Int := 25 * 60
  speed_window_sec : Int := 25 * 60
  speed_short_window_sec : Int := 5 * 60
  moving_boost_sec : Int := 25 * 60
deriving Repr

def defaultConfig : EngineConfig := {}

def NOTIF_COMPLETION : String := "Completed"
def NOTIF_POI_PASSAGE : String := "POI Passage"
def NOTIF_PRE_15 : String := "15 Min Notification"
def NOTIF_PRE_30 : String := "30 Min Notification"
def NOTIF_30MIN_UPDATE : String := "30 Min Update"
def NOTIF_GAP_START : String := "Gap Start"
def NOTIF_GAP_END : String := "Gap End"

/-- Model of the module-level `_pos_m` in `core/engine.py`: position of a telemetry sample in meters.
1. kp present -> kp * 1000 (kp wins even when gc is also present);
2. else gc present and mapped -> mapped kp * 1000;
3. else gc present unmapped -> gc * meters_per_channel;
4. else undefined. -/
def pos_m (gc_to_kp : Int → Option ℚ) (meters_per_channel : ℚ) (s : PosSample) : Option ℚ :=
  match s.kp with
  | some kp => some (kp * 1000)
  | none =>
    match s.gc with
    | some gc =>
      match gc_to_kp gc with
      | some kp => some (kp * 1000)
      | none => some ((gc : ℚ) * meters_per_channel)
    | none => none

/-- Model of `Engine._poi_pos_m`: position of a POI in meters, same cascade as
`_pos_m` (`Engine._kp_from_gc` is the map lookup). -/
def poi_pos_m (gc_to_kp : Int → Option ℚ) (meters_per_channel : ℚ) (p : POI) : Option ℚ :=
  match p.kp with
  | some kp => some (kp * 1000)
  | none =>
    match p.global_channel with
    | some gc =>
      match gc_to_kp gc with
      | some kp => some (kp * 1000)
      | none => some ((gc : ℚ) * meters_per_channel)
    | none => none

/-- Model of `CsvRepo.get_recent_positions`: samples with `dt >= since`, keeping the
stored (timestamp-ascending) order. -/
def get_recent_positions (telemetry : List PosSample) (since : Int) : List PosSample :=
  telemetry.filter (fun s => since ≤ s.dt)

/-- Python `max` over a nonempty list. -/
def list_max : List ℚ → Option ℚ
  | [] => none
  | x :: xs => some (xs.foldl max x)

/-- Python `min` over a nonempty list. -/
def list_min : List ℚ → Option ℚ
  | [] => none
  | x :: xs => some (xs.foldl min x)

/-- Model of `Engine._positions_span_m`: `max - min` of the defined positions,
`none` when no sample has a defined position. -/
def positions_span_m (gc_to_kp : Int → Option ℚ) (meters_per_channel : ℚ)
    (samples : List PosSample) : Option ℚ :=
  let positions := samples.filterMap (pos_m gc_to_kp meters_per_channel)
  match list_max positions, list_min positions with
  | some mx, some mn => some (mx - mn)
  | _, _ => none

/-- Model of `Engine._infer_pig_event`: Completed near the end POI, else Stopped
when the recent span is within tolerance, else Moving.  `telemetry` stands
for the repository contents consulted through `get_recent_positions`. -/
def infer_pig_event (cfg : EngineConfig) (gc_to_kp : Int → Option ℚ)
    (telemetry : List PosSample) (cur : PosSample) (cur_pos_m : ℚ)
    (end_poi : Option POI) : String :=
  let completed : Bool :=
    match end_poi with
    | some e =>
      match poi_pos_m gc_to_kp cfg.meters_per_channel e with
      | some end_m => decide (|cur_pos_m - end_m| ≤ cfg.poi_tol_meters)
      | none => false
    | none => false
  if completed then "Completed"
  else
    let since := cur.dt - cfg.stop_window_seconds
    let recent := get_recent_positions telemetry since
    match positions_span_m gc_to_kp cfg.meters_per_channel recent with
    | some span => if span ≤ cfg.stop_span_tol_m then "Stopped" else "Moving"
    | none => "Moving"

/-- Model of `Engine._update_event_state`: record the raw event; on a
Stopped -> Moving transition additionally set `moving_started_at`. -/
def update_event_state (state : PigState) (new_event : String) (event_dt : Int) : PigState :=
  let prev_event := state.last_event
  let state1 :=
    if prev_event ≠ some new_event then
      if prev_event = some "Stopped" ∧ new_event = "Moving" then
        { state with moving_started_at := some event_dt }
      else state
    else state
  { state1 with last_event := some new_event, last_event_dt := some event_dt }

/-- The event-handling slice of `Engine.process_pig`: the payload field
"Pig Event" is the raw classification returned by `_infer_pig_event`
(`pig_event` is passed through `_build_payload` unchanged), and the state
is updated by `_update_event_state`.  No overlay is applied. -/
structure EventStep where
  payload_event : String
  state : PigState
deriving DecidableEq, Repr

def process_pig_event_step (state : PigState) (pig_event : String) (cur_dt : Int) : EventStep :=
  { payload_event := pig_event, state := update_event_state state pig_event cur_dt }

/-- Model of `Engine._infer_30min_update`: returns whether the periodic update fires
together with the mutated state. -/
def infer_30min_update (state : PigState) (cur_dt : Int) : Bool × PigState :=
  match state.first_notif_at with
  | none =>
    (true, { state with first_notif_at := some cur_dt, last_notif_at := some cur_dt })
  | some _ =>
    match state.last_notif_at with
    | none => (true, { state with last_notif_at := some cur_dt })
    | some last =>
      if 30 * 60 ≤ cur_dt - last then (true, { state with last_notif_at := some cur_dt })
      else (false, state)

/-- Model of `Engine._infer_pre_poi_notification`: fire the 30- or 15-minute
upstream warning when the ETA lies in the corresponding 60-second window
and the per-tag flag does not already hold the next POI's tag.  In the
source the 30-minute `if` falls through to the 15-minute check both when
the window misses and when the flag already equals the tag; the windows
are disjoint so the flattened conditional below has identical behavior. -/
def infer_pre_poi_notification (state : PigState) (next_poi : Option POI)
    (eta_next_sec : Option ℚ) : String × PigState :=
  match next_poi, eta_next_sec with
  | some np, some eta =>
    let tag := np.tag
    if (30 * 60 - 60 ≤ eta ∧ eta ≤ 30 * 60 + 60) ∧ state.fired_pre30_for_tag ≠ some tag then
      (NOTIF_PRE_30, { state with fired_pre30_for_tag := some tag })
    else if (15 * 60 - 60 ≤ eta ∧ eta ≤ 15 * 60 + 60) ∧ state.fired_pre15_for_tag ≠ some tag then
      (NOTIF_PRE_15, { state with fired_pre15_for_tag := some tag })
    else ("", state)
  | _, _ => ("", state)

/-- Model of `Engine._reset_on_completion`. -/
def reset_on_completion (state : PigState) : PigState :=
  { state with
    locked_legacy_route := none
    fired_pre15_for_tag := none
    fired_pre30_for_tag := none
    moving_started_at := none
    last_gap_fired := none }

/-- Key lookup in the insertion-ordered routes dict. -/
def routes_lookup (routes : List (String × List POI)) (name : String) : Option (List POI) :=
  (routes.find? (fun rp => rp.1 == name)).map (fun rp => rp.2)

/-- Python `max(routes.keys(), key=lambda r: len(routes[r]))`: the first
key (in insertion order) whose POI list has maximal length. -/
def pick_most_pois (first : String × List POI) (rest : List (String × List POI)) :
    String × List POI :=
  rest.foldl (fun best rp => if best.2.length < rp.2.length then rp else best) first

/-- The recompute-and-lock branch of `Engine._pick_legacy_route`. -/
def pick_route_fresh (routes : List (String × List POI)) (state : PigState) :
    String × PigState :=
  match routes with
  | [] => ("unknown", state)
  | r0 :: rest =>
    let chosen := (pick_most_pois r0 rest).1
    (chosen, { state with locked_legacy_route := some chosen })

/-- Model of `Engine._pick_legacy_route`: return the sticky route while it is set
(and truthy, i.e. nonempty) and still among the grouped routes; otherwise
pick the route with the most POIs and lock it, or "unknown" when there are
no routes. -/
def pick_legacy_route (routes : List (String × List POI)) (state : PigState) :
    String × PigState :=
  match state.locked_legacy_route with
  | some r =>
    if r ≠ "" ∧ (routes_lookup routes r).isSome then (r, state)
    else pick_route_fresh routes state
  | none => pick_route_fresh routes state

/-- Position interval spanned by a route's POIs (defined positions only). -/
def route_interval (gc_to_kp : Int → Option ℚ) (mpc : ℚ) (pois : List POI) :
    Option (ℚ × ℚ) :=
  let ps := pois.filterMap (poi_pos_m gc_to_kp mpc)
  match list_min ps, list_max ps with
  | some mn, some mx => some (mn, mx)
  | _, _ => none

/-- The route-binding rule exactly as the specification words it (spec
section 4.1.4), written here from the spec for comparison against the
source's `pick_legacy_route`: the narrowest route whose tolerance-widened
position interval contains the current position (ties broken by smallest
span), else the route of the POI nearest to the position by absolute
distance, else "Unknown". -/
def spec_route_binding (gc_to_kp : Int → Option ℚ) (mpc tol : ℚ)
    (routes : List (String × List POI)) (cur_pos_m : ℚ) : String :=
  let withInterval := routes.filterMap (fun rp =>
    (route_interval gc_to_kp mpc rp.2).map (fun iv => (rp.1, iv.1, iv.2)))
  let containing := withInterval.filter (fun t =>
    decide (t.2.1 - tol ≤ cur_pos_m ∧ cur_pos_m ≤ t.2.2 + tol))
  match containing with
  | c :: cs =>
    (cs.foldl (fun best t => if t.2.2 - t.2.1 < best.2.2 - best.2.1 then t else best) c).1
  | [] =>
    let cands := routes.foldr (fun rp acc =>
      rp.2.filterMap (fun p =>
        (poi_pos_m gc_to_kp mpc p).map (fun pm => (rp.1, |cur_pos_m - pm|))) ++ acc) []
    match cands with
    | c :: cs => (cs.foldl (fun best t => if t.2 < best.2 then t else best) c).1
    | [] => "Unknown"

/-- Model of `Engine._calc_speed_mps`: signed displacement over elapsed time;
`none` when the reference position is undefined or the time delta is not
positive. -/
def calc_speed_mps (gc_to_kp : Int → Option ℚ) (mpc : ℚ) (cur : PosSample)
    (cur_pos_m : ℚ) (ref : PosSample) : Option ℚ :=
  match pos_m gc_to_kp mpc ref with
  | none => none
  | some ref_pos_m =>
    let dt_sec : Int := cur.dt - ref.dt
    if dt_sec ≤ 0 then none
    else some ((cur_pos_m - ref_pos_m) / (dt_sec : ℚ))

/-- Module-level `speed_mps_by_ref` in `core/engine.py`: signed speed with
magnitudes below `speed_min_mps` clamped to zero. -/
def speed_mps_by_ref (gc_to_kp : Int → Option ℚ) (mpc speed_min_mps : ℚ)
    (cur ref : PosSample) : Option ℚ :=
  match pos_m gc_to_kp mpc cur, pos_m gc_to_kp mpc ref with
  | some cur_m, some ref_m =>
    let dt_sec : Int := cur.dt - ref.dt
    if dt_sec ≤ 0 then none
    else
      let speed := (cur_m - ref_m) / (dt_sec : ℚ)
      if |speed| < speed_min_mps then some 0 else some speed
  | _, _ => none

/-- Model of `Engine._gap_pos_m`. -/
def gap_pos_m (kp : ℚ) : ℚ := kp * 1000

/-- Model of `Engine._build_gaps_by_route` restricted to one route: grouping keeps
relative order inside each route and the group is then sorted by kp
(Python's stable sort). -/
def gaps_for_route (gaps : List GapPoint) (route_name : String) : List GapPoint :=
  (gaps.filter (fun g => g.legacy_route == route_name)).mergeSort
    (fun a b => decide (a.kp ≤ b.kp))

/-- The closest-within-tolerance scan of `Engine._infer_gap_notification`:
returns the key `(route, kind, kp)`, the kind and the distance of the best
gap point, strict improvement so the first closest wins. -/
def best_gap_fold (tol : ℚ) (route_name : String) (cur_pos_m : ℚ)
    (route_gaps : List GapPoint) : Option (GapKey × String × ℚ) :=
  route_gaps.foldl
    (fun best g =>
      let d := |cur_pos_m - gap_pos_m g.kp|
      if d ≤ tol then
        match best with
        | none => some ((route_name, g.kind, g.kp), g.kind, d)
        | some b => if d < b.2.2 then some ((route_name, g.kind, g.kp), g.kind, d) else some b
      else best)
    none

/-- Model of `Engine._infer_gap_notification`; `gaps` stands for `repo.get_gaps()`. -/
def infer_gap_notification (cfg : EngineConfig) (gaps : List GapPoint)
    (state : PigState) (route_name : String) (cur_pos_m : ℚ) : String × PigState :=
  if gaps.isEmpty then ("", state)
  else if (gaps_for_route gaps route_name).isEmpty then ("", state)
  else
    match best_gap_fold cfg.poi_tol_meters route_name cur_pos_m
        (gaps_for_route gaps route_name) with
    | none => ("", state)
    | some (best_key, best_kind, _) =>
      if state.last_gap_fired = some best_key then ("", state)
      else if best_kind = "start" then
        (NOTIF_GAP_START, { state with last_gap_fired := some best_key })
      else if best_kind = "end" then
        (NOTIF_GAP_END, { state with last_gap_fired := some best_key })
      else ("", { state with last_gap_fired := some best_key })

/-- Outbox row status (`sender_worker.py` / outbox schema). -/
inductive OutboxStatus
  | NEW | RETRY | SENDING | SENT | DEAD
deriving DecidableEq, Repr

/-- Approval status of an outbox row. -/
inductive ApprovalStatus
  | PENDING | APPROVED | REJECTED
deriving DecidableEq, Repr

/-- One `notifications_outbox` row, with the columns the sender touches. -/
structure OutboxRow where
  id : Nat
  status : OutboxStatus
  approval_status : ApprovalStatus
  attempt_count : Nat
  next_attempt_at : Int
  locked_by : Option String
  locked_at : Option Int
  last_error : Option String
  sent_at : Option Int
  updated_at : Int
deriving DecidableEq, Repr

/-- Row-level semantics of `OutboxSender.reclaim_stale_sending`: the SQL
UPDATE matches a row iff `status='SENDING' AND locked_at IS NOT NULL AND
locked_at < now - stale_seconds`; matched rows move to RETRY with the lock
cleared, unmatched rows are untouched. -/
def reclaim_row (stale_seconds now : Int) (r : OutboxRow) : OutboxRow :=
  match r.locked_at with
  | some la =>
    if r.status = OutboxStatus.SENDING ∧ la < now - stale_seconds then
      { r with
        status := OutboxStatus.RETRY
        next_attempt_at := now
        updated_at := now
        locked_by := none
        locked_at := none }
    else r
  | none => r

/-- The WHERE clause of the claim SELECT in `OutboxSender.claim_batch`:
`status IN ('NEW','RETRY') AND approval_status='APPROVED' AND
next_attempt_at <= now`. -/
def claim_where (now : Int) (r : OutboxRow) : Bool :=
  (r.status = OutboxStatus.NEW ∨ r.status = OutboxStatus.RETRY) ∧
    r.approval_status = ApprovalStatus.APPROVED ∧ r.next_attempt_at ≤ now

/-- The UPDATE half of `OutboxSender.claim_batch`: rows whose id is among
the claimed ids move to SENDING under this worker's lock. -/
def claim_update_row (worker_name : String) (now : Int) (ids : List Nat)
    (r : OutboxRow) : OutboxRow :=
  if ids.contains r.id then
    { r with
      status := OutboxStatus.SENDING
      locked_by := some worker_name
      locked_at := some now
      updated_at := now }
  else r

/-- Model of `OutboxSender.claim_batch`: inside one transaction select up to
`batch_size` rows matching `claim_where`, in ascending id order (the table
list is kept id-sorted), skipping rows locked by concurrent transactions
(`FOR UPDATE SKIP LOCKED`, modelled by the `locked_elsewhere` predicate),
then set the chosen rows to SENDING with `locked_by`/`locked_at`.
Returns the claimed rows (as selected) and the updated table. -/
def claim_batch (worker_name : String) (now : Int) (batch_size : Nat)
    (locked_elsewhere : Nat → Bool) (table : List OutboxRow) :
    List OutboxRow × List OutboxRow :=
  let selected := (table.filter (fun r => claim_where now r && !locked_elsewhere r.id)).take batch_size
  let ids := selected.map (fun r => r.id)
  (selected, table.map (claim_update_row worker_name now ids))

/-- Row-level semantics of `OutboxSender._mark_sent_many`: the UPDATE
matches on `id = ANY(ids)` with no status guard. -/
def mark_sent_row (now : Int) (ids : List Nat) (r : OutboxRow) : OutboxRow :=
  if r.id ∈ ids then
    { r with
      status := OutboxStatus.SENT
      sent_at := some now
      updated_at := now
      locked_by := none
      locked_at := none }
  else r

/-- Row-level semantics of one `executemany` element of
`OutboxSender._mark_retry_many`; `item = (id, next_attempt_count,
backoff_seconds, err)`.  The UPDATE matches on id alone. -/
def mark_retry_row (now : Int) (item : Nat × Nat × Int × String) (r : OutboxRow) : OutboxRow :=
  if r.id = item.1 then
    { r with
      status := OutboxStatus.RETRY
      attempt_count := item.2.1
      next_attempt_at := now + item.2.2.1
      last_error := some (item.2.2.2.take 1000)
      updated_at := now
      locked_by := none
      locked_at := none }
  else r

/-- Row-level semantics of one `executemany` element of
`OutboxSender._mark_dead_many`; `item = (id, attempt_count, err)`.  The
UPDATE matches on id alone. -/
def mark_dead_row (now : Int) (item : Nat × Nat × String) (r : OutboxRow) : OutboxRow :=
  if r.id = item.1 then
    { r with
      status := OutboxStatus.DEAD
      attempt_count := item.2.1
      last_error := some (item.2.2.take 1000)
      updated_at := now
      locked_by := none
      locked_at := none }
  else r

/-- A concrete SENT row used in the terminal-status checks. -/
def sentRow : OutboxRow :=
  { id := 7, status := OutboxStatus.SENT, approval_status := ApprovalStatus.APPROVED,
    attempt_count := 2, next_attempt_at := 0, locked_by := none, locked_at := some 0,
    last_error := none, sent_at := some 500, updated_at := 500 }

/-- A concrete REJECTED row for the claim-gating checks. -/
def rejectedRow : OutboxRow :=
  { id := 1, status := OutboxStatus.NEW, approval_status := ApprovalStatus.REJECTED,
    attempt_count := 0, next_attempt_at := 0, locked_by := none, locked_at := none,
    last_error := none, sent_at := none, updated_at := 0 }

/-- A concrete APPROVED row for the claim-gating checks. -/
def approvedRow : OutboxRow :=
  { id := 2, status := OutboxStatus.NEW, approval_status := ApprovalStatus.APPROVED,
    attempt_count := 0, next_attempt_at := 0, locked_by := none, locked_at := none,
    last_error := none, sent_at := none, updated_at := 0 }

/-- Claim C7: sample and POI positions follow the kp-first cascade. -/
theorem C7_position_in_meters (gk : Int → Option ℚ) (mpc : ℚ) (s : PosSample) (p : POI) :
    (∀ k, s.kp = some k → pos_m gk mpc s = some (k * 1000)) ∧
    (∀ g k, s.kp = none → s.gc = some g → gk g = some k → pos_m gk mpc s = some (k * 1000)) ∧
    (∀ g, s.kp = none → s.gc = some g → gk g = none → pos_m gk mpc s = some ((g : ℚ) * mpc)) ∧
    (s.kp = none → s.gc = none → pos_m gk mpc s = none) ∧
    (∀ k, p.kp = some k → poi_pos_m gk mpc p = some (k * 1000)) ∧
    (∀ g k, p.kp = none → p.global_channel = some g → gk g = some k →
      poi_pos_m gk mpc p = some (k * 1000)) ∧
    (∀ g, p.kp = none → p.global_channel = some g → gk g = none →
      poi_pos_m gk mpc p = some ((g : ℚ) * mpc)) ∧
    (p.kp = none → p.global_channel = none → poi_pos_m gk mpc p = none) := by
  refine ⟨?_, ?_, ?_, ?_, ?_, ?_, ?_, ?_⟩ <;> intros <;> simp_all [pos_m, poi_pos_m]

theorem C7_position_witness :
    pos_m (fun g => if g = 100 then some 1 else none) 25 ⟨0, some 100, some (5/2)⟩ = some (5/2 * 1000) ∧
    pos_m (fun g => if g = 100 then some 1 else none) 25 ⟨0, some 100, none⟩ = some (1 * 1000) ∧
    pos_m (fun g => if g = 100 then some 1 else none) 25 ⟨0, some 7, none⟩ = some ((7 : ℚ) * 25) ∧
    pos_m (fun g => if g = 100 then some 1 else none) 25 ⟨0, none, none⟩ = none ∧
    poi_pos_m (fun g => if g = 100 then some 1 else none) 25 ⟨"T", "V", some 7, none, "r"⟩ = some ((7 : ℚ) * 25) := by
  have h1 := C7_position_in_meters (fun g => if g = 100 then some 1 else none) 25
    ⟨0, some 100, some (5/2)⟩ ⟨"T", "V", some 7, none, "r"⟩
  have h2 := C7_position_in_meters (fun g => if g = 100 then some 1 else none) 25
    ⟨0, some 100, none⟩ ⟨"T", "V", some 7, none, "r"⟩
  have h3 := C7_position_in_meters (fun g => if g = 100 then some 1 else none) 25
    ⟨0, some 7, none⟩ ⟨"T", "V", some 7, none, "r"⟩
  have h4 := C7_position_in_meters (fun g => if g = 100 then some 1 else none) 25
    ⟨0, none, none⟩ ⟨"T", "V", some 7, none, "r"⟩
  exact ⟨h1.1 (5/2) rfl,
    h2.2.1 100 1 rfl rfl (by norm_num),
    h3.2.2.1 7 rfl rfl (by norm_num),
    h4.2.2.2.1 rfl rfl,
    h4.2.2.2.2.2.2.1 7 rfl rfl (by norm_num)⟩

/-- Claim C5 (code evaluation at the failing input): no 2-minute minimum
gate exists and the computed speed is signed, hence can be negative.  The
current sample is 60 s after the reference and 1000 m behind it. -/
theorem C5_speed_gate_missing_and_signed :
    calc_speed_mps (fun _ => none) 25 ⟨60, none, some 0⟩ 0 ⟨0, none, some 1⟩ = some (-50 / 3) ∧
    (-50 / 3 : ℚ) < 0 ∧ ((60 : Int) - 0 < 120) ∧
    speed_mps_by_ref (fun _ => none) 25 (1 / 100) ⟨60, none, some 0⟩ ⟨0, none, some 1⟩ =
      some (-50 / 3) := by
  refine ⟨?_, by norm_num, by norm_num, ?_⟩
  · norm_num [calc_speed_mps, pos_m]
  · norm_num [speed_mps_by_ref, pos_m]
    rw [show |(50 : ℚ) / 3| = 50 / 3 from abs_of_nonneg (by norm_num)]
    norm_num

/-- Claim C2 (code evaluation at the failing input): a single defined
position inside the stop window classifies as "Stopped", and no input ever
classifies as "Not Detected". -/
theorem C2_motion_classification_code :
    infer_pig_event defaultConfig (fun _ => none) [⟨0, none, some 10⟩] ⟨0, none, some 10⟩
      10000 none = "Stopped" ∧
    (∀ cfg gk tel cur pos endp, infer_pig_event cfg gk tel cur pos endp ≠ "Not Detected") := by
  constructor
  · norm_num [infer_pig_event, get_recent_positions, positions_span_m, pos_m,
      list_max, list_min, defaultConfig, List.filter, List.filterMap]
  · intro cfg gk tel cur pos endp
    unfold infer_pig_event
    dsimp only
    split
    · decide
    · split
      · split <;> decide
      · decide

/-- Claim C6 (code evaluation): the payload event always equals the raw
classification; on a Stopped -> Moving tick the emitted event is "Moving"
(never "Resumption", which `_infer_pig_event` cannot even produce), while
`moving_started_at` is set and `last_event` stores the raw event. -/
theorem C6_no_resumption_overlay :
    (∀ st ev t, (process_pig_event_step st ev t).payload_event = ev) ∧
    (process_pig_event_step { PigState.init with last_event := some "Stopped" } "Moving"
      100).payload_event = "Moving" ∧
    (process_pig_event_step { PigState.init with last_event := some "Stopped" } "Moving"
      100).state.moving_started_at = some 100 ∧
    (process_pig_event_step { PigState.init with last_event := some "Stopped" } "Moving"
      100).state.last_event = some "Moving" ∧
    (∀ cfg gk tel cur pos endp, infer_pig_event cfg gk tel cur pos endp ≠ "Resumption") := by
  refine ⟨fun st ev t => rfl, by decide, by decide, by decide, ?_⟩
  intro cfg gk tel cur pos endp
  unfold infer_pig_event
  dsimp only
  split
  · decide
  · split
    · split <;> decide
    · decide

/-- Claim C3: periodic-update cadence of `_infer_30min_update`.  The
invariant hypothesis (`first_notif_at` unset implies `last_notif_at`
unset) holds for every engine-reachable state, since the only write to
`first_notif_at` also sets `last_notif_at` and `_reset_on_completion`
touches neither. -/
theorem C3_periodic_update_cadence (st : PigState) (now : Int)
    (hinv : st.first_notif_at = none → st.last_notif_at = none) :
    (st.first_notif_at = none →
      (infer_30min_update st now).1 = true ∧
      (infer_30min_update st now).2.first_notif_at = some now ∧
      (infer_30min_update st now).2.last_notif_at = some now) ∧
    (∀ f l, st.first_notif_at = some f → st.last_notif_at = some l →
      ((infer_30min_update st now).1 = true ↔ 30 * 60 ≤ now - l) ∧
      ((infer_30min_update st now).1 = true →
        (infer_30min_update st now).2.last_notif_at = some now) ∧
      ((infer_30min_update st now).1 = false →
        (infer_30min_update st now).2.last_notif_at = some l) ∧
      (infer_30min_update st now).2.first_notif_at = some f) ∧
    (∀ l lnew, st.last_notif_at = some l →
      (infer_30min_update st now).2.last_notif_at = some lnew → l ≤ lnew) := by
  refine ⟨?_, ?_, ?_⟩
  · intro hf
    simp [infer_30min_update, hf]
  · intro f l hf hl
    simp only [infer_30min_update, hf, hl]
    split
    · rename_i hge
      simp_all
    · rename_i hlt
      simp_all
  · intro l lnew hl hlnew
    rcases hfst : st.first_notif_at with _ | f
    · exact absurd hl (by simp [hinv hfst])
    · simp only [infer_30min_update, hfst, hl] at hlnew
      split at hlnew
      · rename_i hge
        simp_all
        omega
      · simp_all

theorem C3_periodic_update_cadence_witness :
    (infer_30min_update ⟨none, none, none, none, some 0, some 0, none, none, none⟩ 1800).1 = true ∧
    (infer_30min_update ⟨none, none, none, none, some 0, some 0, none, none, none⟩
      1800).2.last_notif_at = some 1800 := by
  have h := C3_periodic_update_cadence ⟨none, none, none, none, some 0, some 0, none, none, none⟩
    1800 (by intro hc; exact absurd hc (by decide))
  have h2 := h.2.1 0 0 rfl rfl
  have hfire := h2.1.mpr (by norm_num)
  exact ⟨hfire, h2.2.1 hfire⟩

/-- Claim C4 counterexample: with no reset in between, the 30-minute
warning fires twice for tag "A" — the flag is merely overwritten when a
warning for tag "B" fires, so the same tag can re-fire before any
Completed reset. -/
theorem C4_refire_counterexample :
    (infer_pre_poi_notification PigState.init (some ⟨"A", "V", none, some 1, "r"⟩)
      (some 1800)).1 = NOTIF_PRE_30 ∧
    (infer_pre_poi_notification
      (infer_pre_poi_notification PigState.init (some ⟨"A", "V", none, some 1, "r"⟩)
        (some 1800)).2
      (some ⟨"B", "V", none, some 1, "r"⟩) (some 1800)).1 = NOTIF_PRE_30 ∧
    (infer_pre_poi_notification
      (infer_pre_poi_notification
        (infer_pre_poi_notification PigState.init (some ⟨"A", "V", none, some 1, "r"⟩)
          (some 1800)).2
        (some ⟨"B", "V", none, some 1, "r"⟩) (some 1800)).2
      (some ⟨"A", "V", none, some 1, "r"⟩) (some 1800)).1 = NOTIF_PRE_30 := by
  have h1 : infer_pre_poi_notification PigState.init (some ⟨"A", "V", none, some 1, "r"⟩)
      (some 1800) =
      (NOTIF_PRE_30, ⟨none, none, none, none, none, none, none, some "A", none⟩) := by
    rw [infer_pre_poi_notification, if_pos ⟨⟨by norm_num, by norm_num⟩, by simp [PigState.init]⟩]
    rfl
  have h2 : infer_pre_poi_notification
      ⟨none, none, none, none, none, none, none, some "A", none⟩
      (some ⟨"B", "V", none, some 1, "r"⟩) (some 1800) =
      (NOTIF_PRE_30, ⟨none, none, none, none, none, none, none, some "B", none⟩) := by
    rw [infer_pre_poi_notification, if_pos ⟨⟨by norm_num, by norm_num⟩, by simp⟩]
  have h3 : infer_pre_poi_notification
      ⟨none, none, none, none, none, none, none, some "B", none⟩
      (some ⟨"A", "V", none, some 1, "r"⟩) (some 1800) =
      (NOTIF_PRE_30, ⟨none, none, none, none, none, none, none, some "A", none⟩) := by
    rw [infer_pre_poi_notification, if_pos ⟨⟨by norm_num, by norm_num⟩, by simp⟩]
  rw [h1, h2, h3]
  exact ⟨rfl, rfl, rfl⟩

/-- Claim C4 amended: per-call flag semantics of
`_infer_pre_poi_notification` plus the Completed reset. -/
theorem C4_pre_poi_dedup_amended (st : PigState) (np : POI) (eta : Option ℚ) :
    ((infer_pre_poi_notification st (some np) eta).1 = NOTIF_PRE_30 →
      st.fired_pre30_for_tag ≠ some np.tag ∧
      (infer_pre_poi_notification st (some np) eta).2.fired_pre30_for_tag = some np.tag) ∧
    ((infer_pre_poi_notification st (some np) eta).1 = NOTIF_PRE_15 →
      st.fired_pre15_for_tag ≠ some np.tag ∧
      (infer_pre_poi_notification st (some np) eta).2.fired_pre15_for_tag = some np.tag) ∧
    (st.fired_pre30_for_tag = some np.tag →
      (infer_pre_poi_notification st (some np) eta).1 ≠ NOTIF_PRE_30) ∧
    (st.fired_pre15_for_tag = some np.tag →
      (infer_pre_poi_notification st (some np) eta).1 ≠ NOTIF_PRE_15) ∧
    (reset_on_completion st).fired_pre30_for_tag = none ∧
    (reset_on_completion st).fired_pre15_for_tag = none ∧
    (reset_on_completion st).locked_legacy_route = none := by
  rcases eta with _ | e
  · refine ⟨?_, ?_, ?_, ?_, rfl, rfl, rfl⟩ <;>
      simp [infer_pre_poi_notification, NOTIF_PRE_30, NOTIF_PRE_15]
  · refine ⟨?_, ?_, ?_, ?_, rfl, rfl, rfl⟩ <;>
    · simp only [infer_pre_poi_notification]
      split_ifs <;> simp_all [NOTIF_PRE_30, NOTIF_PRE_15]

theorem C4_pre_poi_dedup_amended_witness :
    (infer_pre_poi_notification
      ⟨none, none, none, none, none, none, none, some "A", none⟩
      (some ⟨"A", "V", none, some 1, "r"⟩) (some 1800)).1 ≠ NOTIF_PRE_30 ∧
    (reset_on_completion ⟨none, none, none, none, none, none, none, some "A", none⟩
      ).fired_pre30_for_tag = none := by
  have h := C4_pre_poi_dedup_amended
    ⟨none, none, none, none, none, none, none, some "A", none⟩
    ⟨"A", "V", none, some 1, "r"⟩ (some 1800)
  exact ⟨h.2.2.1 rfl, h.2.2.2.2.2.1⟩

/-- Case characterization of `infer_gap_notification`: either no gap point
is within tolerance (result empty, state untouched), or the closest one is
suppressed by the dedup flag, or it fires and is recorded. -/
theorem infer_gap_characterization (cfg : EngineConfig) (gaps : List GapPoint)
    (st : PigState) (route : String) (pos : ℚ) :
    (best_gap_fold cfg.poi_tol_meters route pos (gaps_for_route gaps route) = none ∧
      infer_gap_notification cfg gaps st route pos = ("", st)) ∨
    (∃ k kind d,
      best_gap_fold cfg.poi_tol_meters route pos (gaps_for_route gaps route) =
        some (k, kind, d) ∧
      ((st.last_gap_fired = some k ∧
        infer_gap_notification cfg gaps st route pos = ("", st)) ∨
        (st.last_gap_fired ≠ some k ∧
          infer_gap_notification cfg gaps st route pos =
            ((if kind = "start" then NOTIF_GAP_START
              else if kind = "end" then NOTIF_GAP_END else ""),
              { st with last_gap_fired := some k })))) := by
  unfold infer_gap_notification
  split
  · rename_i hg
    left
    have hnil : gaps = [] := by simpa using hg
    subst hnil
    refine ⟨?_, rfl⟩
    simp [gaps_for_route, best_gap_fold]
  · split
    · rename_i hrg
      left
      have hnil : gaps_for_route gaps route = [] := by simpa using hrg
      rw [hnil]
      exact ⟨rfl, rfl⟩
    · split
      · rename_i hbest
        left
        exact ⟨hbest, rfl⟩
      · rename_i k kind d hbest
        right
        refine ⟨k, kind, d, hbest, ?_⟩
        split
        · rename_i hdup
          exact Or.inl ⟨hdup, rfl⟩
        · rename_i hdup
          refine Or.inr ⟨hdup, ?_⟩
          split_ifs <;> rfl

/-- Claim C10: when a gap notification fires, the identity of the fired
gap point is recorded in `last_gap_fired` and differed from it before; a
gap notification is suppressed whenever the closest in-tolerance gap
point's identity equals `last_gap_fired`, so the boundary fired on one
tick cannot fire again on the next tick while it stays the closest match;
`last_gap_fired` is never cleared by the gap logic itself and is cleared
by the Completed reset. -/
theorem C10_gap_dedup (cfg : EngineConfig) (gaps : List GapPoint) (st : PigState)
    (route : String) (pos pos2 : ℚ) :
    (∀ k kind d,
      best_gap_fold cfg.poi_tol_meters route pos (gaps_for_route gaps route) =
        some (k, kind, d) →
      st.last_gap_fired = some k →
      infer_gap_notification cfg gaps st route pos = ("", st)) ∧
    ((infer_gap_notification cfg gaps st route pos).1 = NOTIF_GAP_START ∨
        (infer_gap_notification cfg gaps st route pos).1 = NOTIF_GAP_END →
      ∃ k kind d,
        best_gap_fold cfg.poi_tol_meters route pos (gaps_for_route gaps route) =
          some (k, kind, d) ∧
        (infer_gap_notification cfg gaps st route pos).2.last_gap_fired = some k ∧
        st.last_gap_fired ≠ some k) ∧
    (∀ k kind d kind2 d2,
      best_gap_fold cfg.poi_tol_meters route pos (gaps_for_route gaps route) =
        some (k, kind, d) →
      best_gap_fold cfg.poi_tol_meters route pos2 (gaps_for_route gaps route) =
        some (k, kind2, d2) →
      ((infer_gap_notification cfg gaps st route pos).1 = NOTIF_GAP_START ∨
        (infer_gap_notification cfg gaps st route pos).1 = NOTIF_GAP_END) →
      (infer_gap_notification cfg gaps
        (infer_gap_notification cfg gaps st route pos).2 route pos2).1 = "") ∧
    ((infer_gap_notification cfg gaps st route pos).2.last_gap_fired = none →
      st.last_gap_fired = none) ∧
    (reset_on_completion st).last_gap_fired = none := by
  rcases infer_gap_characterization cfg gaps st route pos with
    ⟨hnone, heq⟩ | ⟨k0, kind0, d0, hbest0, hcase⟩
  · rw [heq]
    refine ⟨fun k kind d hbest _ => rfl, ?_, ?_, fun h => h, rfl⟩
    · intro hfired
      exact absurd hfired (by simp [NOTIF_GAP_START, NOTIF_GAP_END])
    · intro k kind d kind2 d2 hb1 _ _
      rw [hnone] at hb1
      exact absurd hb1 (by simp)
  · rcases hcase with ⟨hdup, heq⟩ | ⟨hne, heq⟩
    · rw [heq]
      refine ⟨fun k kind d hbest _ => rfl, ?_, ?_, fun h => h, rfl⟩
      · intro hfired
        exact absurd hfired (by simp [NOTIF_GAP_START, NOTIF_GAP_END])
      · intro k kind d kind2 d2 hb1 _ hfired
        exact absurd hfired (by simp [NOTIF_GAP_START, NOTIF_GAP_END])
    · refine ⟨?_, ?_, ?_, ?_, rfl⟩
      · intro k kind d hbest hlast
        have h := hbest0.symm.trans hbest
        simp only [Option.some.injEq, Prod.mk.injEq] at h
        exact absurd (h.1 ▸ hlast) hne
      · intro _
        exact ⟨k0, kind0, d0, hbest0, by rw [heq], hne⟩
      · intro k kind d kind2 d2 hb1 hb2 _
        have h := hbest0.symm.trans hb1
        simp only [Option.some.injEq, Prod.mk.injEq] at h
        have hstate : (infer_gap_notification cfg gaps st route pos).2.last_gap_fired =
            some k := by rw [heq, h.1]
        rcases infer_gap_characterization cfg gaps
            (infer_gap_notification cfg gaps st route pos).2 route pos2 with
          ⟨hnone2, heq2⟩ | ⟨k2, kind2a, d2a, hbest2, hcase2⟩
        · rw [heq2]
        · rcases hcase2 with ⟨_, heq2⟩ | ⟨hne2, heq2⟩
          · rw [heq2]
          · have h2 := hbest2.symm.trans hb2
            simp only [Option.some.injEq, Prod.mk.injEq] at h2
            exact absurd (h2.1 ▸ hstate) hne2
      · intro hcl
        rw [heq] at hcl
        exact absurd hcl (by simp)

theorem C10_gap_dedup_witness :
    (infer_gap_notification defaultConfig [⟨"r", "start", 10⟩]
      (infer_gap_notification defaultConfig [⟨"r", "start", 10⟩] PigState.init "r" 10000).2
      "r" 10000).1 = "" := by
  have hroute : gaps_for_route [(⟨"r", "start", 10⟩ : GapPoint)] "r" =
      [⟨"r", "start", 10⟩] := by
    simp [gaps_for_route]
  have hbest : best_gap_fold defaultConfig.poi_tol_meters "r" 10000
      (gaps_for_route [(⟨"r", "start", 10⟩ : GapPoint)] "r") =
      some (("r", "start", 10), "start", 0) := by
    rw [hroute]
    norm_num [best_gap_fold, gap_pos_m, defaultConfig]
  have hfired : (infer_gap_notification defaultConfig [⟨"r", "start", 10⟩]
      PigState.init "r" 10000).1 = NOTIF_GAP_START := by
    rw [infer_gap_notification]
    rw [if_neg (by simp)]
    rw [if_neg (by rw [hroute]; simp)]
    rw [hbest]
    dsimp only
    rw [if_neg (by simp [PigState.init]), if_pos rfl]
  exact (C10_gap_dedup defaultConfig [⟨"r", "start", 10⟩] PigState.init "r" 10000
    10000).2.2.1 ("r", "start", 10) "start" 0 "start" 0 hbest hbest (Or.inl hfired)

/-- The Python `max` fold returns its seed or a list element. -/
theorem pick_most_pois_mem (first : String × List POI) (rest : List (String × List POI)) :
    pick_most_pois first rest = first ∨ pick_most_pois first rest ∈ rest := by
  induction rest generalizing first with
  | nil => exact Or.inl rfl
  | cons rp rs ih =>
    have hstep : pick_most_pois first (rp :: rs) =
        pick_most_pois (if first.2.length < rp.2.length then rp else first) rs := rfl
    rcases ih (if first.2.length < rp.2.length then rp else first) with h | h
    · rw [hstep, h]
      split
      · exact Or.inr (List.mem_cons_self _ _)
      · exact Or.inl rfl
    · rw [hstep]
      exact Or.inr (List.mem_cons_of_mem _ h)

/-- The Python `max` fold dominates the seed and every list element. -/
theorem pick_most_pois_max (first : String × List POI) (rest : List (String × List POI)) :
    ∀ x ∈ first :: rest, x.2.length ≤ (pick_most_pois first rest).2.length := by
  induction rest generalizing first with
  | nil =>
    intro x hx
    rcases List.mem_cons.mp hx with h | h
    · subst h; exact le_refl _
    · cases h
  | cons rp rs ih =>
    intro x hx
    have hstep : pick_most_pois first (rp :: rs) =
        pick_most_pois (if first.2.length < rp.2.length then rp else first) rs := rfl
    rw [hstep]
    have hhead : x = first ∨ x = rp ∨ x ∈ rs := by simpa using hx
    have hfirstle : first.2.length ≤
        (if first.2.length < rp.2.length then rp else first).2.length := by
      split
      · exact le_of_lt (by assumption)
      · exact le_refl _
    have hrple : rp.2.length ≤
        (if first.2.length < rp.2.length then rp else first).2.length := by
      split
      · exact le_refl _
      · exact le_of_not_lt (by assumption)
    have hin := ih (if first.2.length < rp.2.length then rp else first)
    rcases hhead with h | h | h
    · subst h
      exact le_trans hfirstle (hin _ (List.mem_cons_self _ _))
    · subst h
      exact le_trans hrple (hin _ (List.mem_cons_self _ _))
    · exact hin x (List.mem_cons_of_mem _ h)

/-- Claim C1 counterexample: with no sticky route bound, position 10000 m,
route "a" holding one POI at kp 10 (its widened interval contains the
position) and route "b" holding two POIs at kp 100 and 200 (interval far
away), the code binds "b" (most POIs) while the claimed rule binds the
narrowest containing route "a". -/
theorem C1_route_binding_counterexample :
    (pick_legacy_route
      [("b", [⟨"B1", "V", none, some 100, "b"⟩, ⟨"B2", "V", none, some 200, "b"⟩]),
        ("a", [⟨"A", "V", none, some 10, "a"⟩])] PigState.init).1 = "b" ∧
    spec_route_binding (fun _ => none) 25 50
      [("b", [⟨"B1", "V", none, some 100, "b"⟩, ⟨"B2", "V", none, some 200, "b"⟩]),
        ("a", [⟨"A", "V", none, some 10, "a"⟩])] 10000 = "a" ∧
    ("b" : String) ≠ "a" := by
  refine ⟨rfl, ?_, by decide⟩
  norm_num [spec_route_binding, route_interval, poi_pos_m, list_min, list_max,
    List.filterMap_cons, List.filter_cons, decide_eq_true_eq]

/-- Claim C1 amended: `_pick_legacy_route` returns the sticky route while
it is set, nonempty and still among the grouped routes (independent of
position, "Unknown" or a Completed decision); otherwise it picks the first
route with the most POIs (dict insertion order breaks ties) and locks it,
or the string "unknown" when no routes exist. -/
theorem C1_route_binding_amended (routes : List (String × List POI)) (st : PigState) :
    (∀ r, st.locked_legacy_route = some r → r ≠ "" →
      (routes_lookup routes r).isSome = true →
      pick_legacy_route routes st = (r, st)) ∧
    (st.locked_legacy_route = none → routes = [] →
      pick_legacy_route routes st = ("unknown", st)) ∧
    (∀ r0 rest, st.locked_legacy_route = none → routes = r0 :: rest →
      (pick_legacy_route routes st).1 = (pick_most_pois r0 rest).1 ∧
      pick_most_pois r0 rest ∈ routes ∧
      (∀ rp ∈ routes, rp.2.length ≤ (pick_most_pois r0 rest).2.length) ∧
      (pick_legacy_route routes st).2 =
        { st with locked_legacy_route := some (pick_most_pois r0 rest).1 }) := by
  refine ⟨?_, ?_, ?_⟩
  · intro r hr hne hsome
    simp [pick_legacy_route, hr, hne, hsome]
  · intro hr hnil
    subst hnil
    simp [pick_legacy_route, hr, pick_route_fresh]
  · intro r0 rest hr hnil
    subst hnil
    refine ⟨?_, ?_, ?_, ?_⟩
    · simp [pick_legacy_route, hr, pick_route_fresh]
    · rcases pick_most_pois_mem r0 rest with h | h
      · rw [h]; exact List.mem_cons_self _ _
      · exact List.mem_cons_of_mem _ h
    · exact pick_most_pois_max r0 rest
    · simp [pick_legacy_route, hr, pick_route_fresh]

theorem C1_route_binding_amended_witness :
    pick_legacy_route [("x", [])]
      ⟨some "x", none, none, none, none, none, none, none, none⟩ =
      ("x", ⟨some "x", none, none, none, none, none, none, none, none⟩) ∧
    pick_legacy_route [] PigState.init = ("unknown", PigState.init) := by
  refine ⟨?_, ?_⟩
  · exact (C1_route_binding_amended [("x", [])]
      ⟨some "x", none, none, none, none, none, none, none, none⟩).1 "x" rfl
      (by decide) (by decide)
  · exact (C1_route_binding_amended [] PigState.init).2.1 rfl rfl

/-- In an id-sorted table, rows with equal ids coincide. -/
theorem row_id_inj {table : List OutboxRow}
    (h : table.Pairwise (fun a b => a.id < b.id)) :
    ∀ a ∈ table, ∀ b ∈ table, a.id = b.id → a = b := by
  induction table with
  | nil => intro a ha; cases ha
  | cons x xs ih =>
    rcases List.pairwise_cons.mp h with ⟨hx, hxs⟩
    intro a ha b hb hid
    rcases List.mem_cons.mp ha with rfl | ha1 <;> rcases List.mem_cons.mp hb with rfl | hb1
    · rfl
    · exact absurd hid (Nat.ne_of_lt (hx b hb1))
    · exact absurd hid.symm (Nat.ne_of_lt (hx a ha1))
    · exact ih hxs a ha1 b hb1 hid

/-- Claim C8 counterexample: `_mark_retry_many` filters by id alone, so a
row already SENT whose id appears in the retry list is moved back to
RETRY, changing a terminal status. -/
theorem C8_terminal_status_counterexample :
    (mark_retry_row 1000 (7, 3, 30, "http 500") sentRow).status = OutboxStatus.RETRY ∧
    sentRow.status = OutboxStatus.SENT ∧
    OutboxStatus.RETRY ≠ OutboxStatus.SENT := ⟨rfl, rfl, by decide⟩

/-- Claim C8 amended: the status-guarded operations never touch a SENT or
DEAD row — the reclaim sweep leaves such a row entirely unchanged (in
particular a reclaim on a SENT row is a no-op) and the claim operation
never selects nor modifies it; the ack updates (mark-sent / mark-retry /
mark-dead) filter by id alone and do overwrite a listed row's status
whatever it is, so terminality relies on acks being issued only for ids
claimed by the same worker. -/
theorem C8_terminal_statuses_amended (stale now1 : Int) (r : OutboxRow)
    (worker : String) (batch : Nat) (locked_elsewhere : Nat → Bool)
    (table : List OutboxRow)
    (hsorted : table.Pairwise (fun a b => a.id < b.id)) :
    ((r.status = OutboxStatus.SENT ∨ r.status = OutboxStatus.DEAD) →
      reclaim_row stale now1 r = r) ∧
    (∀ rr ∈ table, (rr.status = OutboxStatus.SENT ∨ rr.status = OutboxStatus.DEAD) →
      rr ∉ (claim_batch worker now1 batch locked_elsewhere table).1 ∧
      rr ∈ (claim_batch worker now1 batch locked_elsewhere table).2) := by
  constructor
  · intro hterm
    have hst : ¬(r.status = OutboxStatus.SENDING) := by
      rcases hterm with h | h <;> simp [h]
    unfold reclaim_row
    cases hla : r.locked_at with
    | none => rfl
    | some la => exact if_neg (fun hc => hst hc.1)
  · intro rr hmem hterm
    have hnotwhere : claim_where now1 rr = false := by
      rcases hterm with h | h <;> simp [claim_where, h]
    have hnotsel : rr ∉ (claim_batch worker now1 batch locked_elsewhere table).1 := by
      intro hsel
      have hfil := List.mem_of_mem_take hsel
      have hp := (List.mem_filter.mp hfil).2
      rw [Bool.and_eq_true, hnotwhere] at hp
      exact Bool.false_ne_true hp.1
    refine ⟨hnotsel, ?_⟩
    have hnotid : ((claim_batch worker now1 batch locked_elsewhere table).1.map
        (fun r => r.id)).contains rr.id = false := by
      by_contra hc
      rw [Bool.not_eq_false] at hc
      have hidmem : rr.id ∈ (claim_batch worker now1 batch locked_elsewhere table).1.map
          (fun r => r.id) := by simpa using hc
      rcases List.mem_map.mp hidmem with ⟨s, hs, hsid⟩
      have hsfil := List.mem_of_mem_take hs
      have hstab := (List.mem_filter.mp hsfil).1
      have : s = rr := row_id_inj hsorted s hstab rr hmem hsid
      subst this
      exact hnotsel hs
    refine List.mem_map.mpr ⟨rr, hmem, ?_⟩
    simp only [claim_batch] at hnotid
    unfold claim_update_row
    rw [if_neg (by rw [hnotid]; exact Bool.false_ne_true)]

theorem C8_terminal_statuses_amended_witness :
    reclaim_row 300 1000 sentRow = sentRow ∧
    sentRow ∈ (claim_batch "w" 1000 5 (fun _ => false) [sentRow]).2 := by
  have h := C8_terminal_statuses_amended 300 1000 sentRow "w" 5 (fun _ => false) [sentRow]
    (by simp)
  exact ⟨h.1 (Or.inl rfl), (h.2 sentRow (by simp) (Or.inl rfl)).2⟩

/-- Claim C9: the claim operation selects only NEW/RETRY, APPROVED, due
rows not locked elsewhere; it takes the lowest ids first; every row of the
updated table is either a SENDING row locked by this worker or an
untouched original row; and a non-APPROVED (REJECTED or PENDING) row is
never selected and never modified. -/
theorem C9_claim_gating (worker : String) (now1 : Int) (batch : Nat)
    (locked_elsewhere : Nat → Bool) (table : List OutboxRow)
    (hsorted : table.Pairwise (fun a b => a.id < b.id)) :
    (∀ r ∈ (claim_batch worker now1 batch locked_elsewhere table).1,
      (r.status = OutboxStatus.NEW ∨ r.status = OutboxStatus.RETRY) ∧
      r.approval_status = ApprovalStatus.APPROVED ∧
      r.next_attempt_at ≤ now1 ∧ locked_elsewhere r.id = false) ∧
    (∀ r ∈ (claim_batch worker now1 batch locked_elsewhere table).2,
      (r.status = OutboxStatus.SENDING ∧ r.locked_by = some worker ∧
        r.locked_at = some now1) ∨ r ∈ table) ∧
    (∀ r ∈ table, r.approval_status ≠ ApprovalStatus.APPROVED →
      r ∉ (claim_batch worker now1 batch locked_elsewhere table).1 ∧
      r ∈ (claim_batch worker now1 batch locked_elsewhere table).2) ∧
    (∀ r ∈ table, claim_where now1 r = true → locked_elsewhere r.id = false →
      r ∉ (claim_batch worker now1 batch locked_elsewhere table).1 →
      ∀ s ∈ (claim_batch worker now1 batch locked_elsewhere table).1, s.id < r.id) := by
  refine ⟨?_, ?_, ?_, ?_⟩
  · intro r hr
    have hfil := List.mem_of_mem_take hr
    have hp := (List.mem_filter.mp hfil).2
    rw [Bool.and_eq_true] at hp
    have hwhere := hp.1
    simp only [claim_where, decide_eq_true_eq] at hwhere
    refine ⟨hwhere.1, hwhere.2.1, hwhere.2.2, ?_⟩
    have := hp.2
    simp only [Bool.not_eq_true'] at this
    exact this
  · intro r hr
    simp only [claim_batch] at hr
    rcases List.mem_map.mp hr with ⟨r0, hr0, heq⟩
    rw [← heq]
    unfold claim_update_row
    split
    · left
      exact ⟨rfl, rfl, rfl⟩
    · right
      exact hr0
  · intro r hr happ
    have hnotwhere : claim_where now1 r = false := by
      rcases hw : claim_where now1 r with _ | _
      · rfl
      · exfalso
        simp only [claim_where, decide_eq_true_eq] at hw
        exact happ hw.2.1
    have hnotsel : r ∉ (claim_batch worker now1 batch locked_elsewhere table).1 := by
      intro hsel
      have hfil := List.mem_of_mem_take hsel
      have hp := (List.mem_filter.mp hfil).2
      rw [Bool.and_eq_true, hnotwhere] at hp
      exact Bool.false_ne_true hp.1
    refine ⟨hnotsel, ?_⟩
    have hnotid : ((claim_batch worker now1 batch locked_elsewhere table).1.map
        (fun r => r.id)).contains r.id = false := by
      by_contra hcon
      rw [Bool.not_eq_false] at hcon
      have hidmem : r.id ∈ (claim_batch worker now1 batch locked_elsewhere table).1.map
          (fun r => r.id) := by simpa using hcon
      rcases List.mem_map.mp hidmem with ⟨s, hs, hsid⟩
      have hsfil := List.mem_of_mem_take hs
      have hstab := (List.mem_filter.mp hsfil).1
      have : s = r := row_id_inj hsorted s hstab r hr hsid
      subst this
      exact hnotsel hs
    refine List.mem_map.mpr ⟨r, hr, ?_⟩
    simp only [claim_batch] at hnotid
    unfold claim_update_row
    rw [if_neg (by rw [hnotid]; exact Bool.false_ne_true)]
  · intro r hr hwhere hlock hnotsel s hs
    have hpr : (fun rr => claim_where now1 rr && !locked_elsewhere rr.id) r = true := by
      rw [Bool.and_eq_true, hwhere, hlock]
      exact ⟨rfl, rfl⟩
    have hrfil : r ∈ table.filter (fun rr => claim_where now1 rr && !locked_elsewhere rr.id) :=
      List.mem_filter.mpr ⟨hr, hpr⟩
    have hpair : (table.filter
        (fun rr => claim_where now1 rr && !locked_elsewhere rr.id)).Pairwise
        (fun a b => a.id < b.id) := hsorted.filter _
    have hsplit := (List.take_append_drop batch (table.filter
      (fun rr => claim_where now1 rr && !locked_elsewhere rr.id))).symm
    have hrdrop : r ∈ (table.filter
        (fun rr => claim_where now1 rr && !locked_elsewhere rr.id)).drop batch := by
      have : r ∈ (table.filter
          (fun rr => claim_where now1 rr && !locked_elsewhere rr.id)).take batch ++
          (table.filter
            (fun rr => claim_where now1 rr && !locked_elsewhere rr.id)).drop batch := by
        rw [List.take_append_drop]
        exact hrfil
      rcases List.mem_append.mp this with h | h
      · exact absurd h hnotsel
      · exact h
    have hpair2 := hsplit ▸ hpair
    exact (List.pairwise_append.mp hpair2).2.2 s hs r hrdrop

theorem C9_claim_gating_witness :
    rejectedRow ∉ (claim_batch "w" 100 5 (fun _ => false) [rejectedRow, approvedRow]).1 ∧
    rejectedRow ∈ (claim_batch "w" 100 5 (fun _ => false) [rejectedRow, approvedRow]).2 := by
  have h := C9_claim_gating "w" 100 5 (fun _ => false) [rejectedRow, approvedRow]
    (by simp [rejectedRow, approvedRow])
  exact h.2.2.1 rejectedRow (by simp) (by decide)
